import Mathlib

/-!
Verification of the demos-faucet quota-enforcement core and DDoS guard.

The definitions below are shallow embeddings of the TypeScript source:
* `checkSafeguards`, `checkAndRecordRequest`, `checkIfAllowed`,
  `recordSuccessfulRequest` embed `src/server/src/safeguards.ts`;
* `apiRequest` embeds the `/api/request` route of `src/server/src/index.ts`;
* `middleware`, `cleanup`, `fireDueTimers` embed the `DDoSProtection`
  class of the security middleware module.

The SQLite `requests` table is modelled as a list of `RequestRecord`s in
insertion order; the `SUM`/`COUNT` window query becomes a filter over that
list.  Store failures inside the exclusive transaction are modelled by an
optional `FailPoint` argument (the point at which the store raises), and
the deferred `setTimeout` unblock of the DDoS guard by an explicit
deadline on each blocked entry together with `fireDueTimers`.
-/

namespace Faucet

/-- A row of the `requests` table: one recorded grant. -/
structure RequestRecord where
  address : String
  amount : Int
  ip : String
  timestamp : Int
deriving Repr, DecidableEq

/-- The `requests` table in insertion order. -/
abbrev Store := List RequestRecord

/-- Faucet configuration, read from the environment in `FaucetServer`'s
constructor (defaults: timeInterval 86400, numberPerInterval 1,
maxAmount 1000). -/
structure Config where
  timeInterval : Int
  numberPerInterval : Int
  maxAmount : Int
deriving Repr, DecidableEq

/-- The records selected by
`SELECT ... FROM requests WHERE address = ? AND timestamp > ?`
with cutoff `now - timeInterval`. -/
def windowRecords (s : Store) (address : String) (now timeInterval : Int) : Store :=
  s.filter (fun r => r.address == address && decide (now - timeInterval < r.timestamp))

/-- `SUM(amount)` of the window query (0 when no rows match, as the code
coalesces SQL NULL to 0). -/
def windowTotal (s : Store) (address : String) (now timeInterval : Int) : Int :=
  ((windowRecords s address now timeInterval).map (fun r => r.amount)).sum

/-- `COUNT(*)` of the window query. -/
def requestCount (s : Store) (address : String) (now timeInterval : Int) : Nat :=
  (windowRecords s address now timeInterval).length

/-- Result type of `checkSafeguards`. -/
structure CheckResult where
  allowed : Bool
  message : String
deriving Repr, DecidableEq

/-- `Safeguards.checkSafeguards(address, amount, ip)`: the single-phase
check used by the `/api/request` route.  It takes a caller-supplied
amount, checks it against the limits and, when allowed, immediately
inserts the request record.  Returns the decision and the store after
the call. -/
def checkSafeguards (cfg : Config) (s : Store) (address : String)
    (amount : Int) (ip : String) (now : Int) : CheckResult × Store :=
  if amount > cfg.maxAmount then
    (⟨false, "Requested amount exceeds maximum allowed amount"⟩, s)
  else if (requestCount s address now cfg.timeInterval : Int) ≥ cfg.numberPerInterval then
    (⟨false, "Address has reached the maximum number of requests for this time interval"⟩, s)
  else if windowTotal s address now cfg.timeInterval + amount > cfg.maxAmount then
    (⟨false, "Address would exceed the maximum amount limit for this time interval"⟩, s)
  else
    (⟨true, "Request allowed"⟩, s ++ [⟨address, amount, ip, now⟩])

/-- Where the store raises inside the exclusive transaction of
`checkAndRecordRequest` (query, insert, or commit failure). -/
inductive FailPoint where
  | atQuery
  | atInsert
  | atCommit
deriving Repr, DecidableEq

/-- The effective ceiling: the identity lookup sets `maxAmount = 100`
when the address carries a Demos identity, else the configured base
`maxAmount` is used. -/
def effectiveMax (cfg : Config) (hasIdentity : Bool) : Int :=
  if hasIdentity then 100 else cfg.maxAmount

/-- `remainingAllowance = maxAmount - stats.total_amount` of
`checkAndRecordRequest` / `checkIfAllowed`. -/
def remainingAllowance (cfg : Config) (hasIdentity : Bool) (s : Store)
    (address : String) (now : Int) : Int :=
  effectiveMax cfg hasIdentity - windowTotal s address now cfg.timeInterval

/-- The catch-block message returned when the store errors during the
transaction. -/
def transientMessage : String :=
  "An error occurred processing your request. Please try again."

/-- Result type of `checkAndRecordRequest` / `checkIfAllowed`:
decision, message, and the server-determined amount (absent on deny). -/
structure GrantResult where
  allowed : Bool
  message : String
  amount : Option Int
deriving Repr, DecidableEq

/-- `Safeguards.checkAndRecordRequest(address, ip, demos?)`: the atomic
check-and-record.  The server determines the amount (the caller passes
none); inside `BEGIN EXCLUSIVE TRANSACTION` it reads the window stats,
denies on the request-count or amount limit (rolling back), otherwise
reduces the amount to the remaining allowance if needed, inserts the
record and commits.  Any store error is caught: the transaction is
rolled back and a deny with `transientMessage` is returned.  `fail`
injects the store error at the point where it would be raised. -/
def checkAndRecordRequest (cfg : Config) (hasIdentity : Bool)
    (fail : Option FailPoint) (s : Store) (address ip : String)
    (now : Int) : GrantResult × Store :=
  if fail = some FailPoint.atQuery then
    (⟨false, transientMessage, none⟩, s)
  else if (requestCount s address now cfg.timeInterval : Int) ≥ cfg.numberPerInterval then
    (⟨false, "Address has reached the maximum number of requests for this time interval", none⟩, s)
  else if effectiveMax cfg hasIdentity > remainingAllowance cfg hasIdentity s address now ∧
      remainingAllowance cfg hasIdentity s address now ≤ 0 then
    (⟨false, "Address has reached the maximum amount limit for this time interval", none⟩, s)
  else if fail = some FailPoint.atInsert ∨ fail = some FailPoint.atCommit then
    (⟨false, transientMessage, none⟩, s)
  else if effectiveMax cfg hasIdentity > remainingAllowance cfg hasIdentity s address now then
    (⟨true, "Request allowed", some (remainingAllowance cfg hasIdentity s address now)⟩,
      s ++ [⟨address, remainingAllowance cfg hasIdentity s address now, ip, now⟩])
  else
    (⟨true, "Request allowed", some (effectiveMax cfg hasIdentity)⟩,
      s ++ [⟨address, effectiveMax cfg hasIdentity, ip, now⟩])

/-- `Safeguards.checkIfAllowed(address, ip, demos?)`: phase 1 of the
two-phase protocol.  Computes the same decision as
`checkAndRecordRequest` but rolls the transaction back without
inserting anything: the store component of the result is always the
input store. -/
def checkIfAllowed (cfg : Config) (hasIdentity : Bool)
    (fail : Option FailPoint) (s : Store) (address ip : String)
    (now : Int) : GrantResult × Store :=
  if fail = some FailPoint.atQuery then
    (⟨false, transientMessage, none⟩, s)
  else if (requestCount s address now cfg.timeInterval : Int) ≥ cfg.numberPerInterval then
    (⟨false, "Address has reached the maximum number of requests for this time interval", none⟩, s)
  else if effectiveMax cfg hasIdentity > remainingAllowance cfg hasIdentity s address now ∧
      remainingAllowance cfg hasIdentity s address now ≤ 0 then
    (⟨false, "Address has reached the maximum amount limit for this time interval", none⟩, s)
  else if effectiveMax cfg hasIdentity > remainingAllowance cfg hasIdentity s address now then
    (⟨true, "Request allowed", some (remainingAllowance cfg hasIdentity s address now)⟩, s)
  else
    (⟨true, "Request allowed", some (effectiveMax cfg hasIdentity)⟩, s)

/-- `Safeguards.recordSuccessfulRequest(address, ip, amount)`: phase 2.
Inserts the record unconditionally (no window query, no policy); on an
insert failure the error is caught and logged, the function still
returns normally and the grant stays unrecorded.  `failInsert` injects
the insert failure. -/
def recordSuccessfulRequest (failInsert : Bool) (s : Store)
    (address ip : String) (amount now : Int) : Store :=
  if failInsert then s else s ++ [⟨address, amount, ip, now⟩]

/-- Response of the `/api/request` route (HTTP status and whether the
body reports success). -/
structure RouteResponse where
  status : Nat
  ok : Bool
deriving Repr, DecidableEq

/-- The `/api/request` route of `index.ts`: after validating that
address and amount are present, it calls `checkSafeguards` (which
records the request when allowed), then attempts the external transfer;
on transfer failure it returns 400 without touching the store again. -/
def apiRequest (cfg : Config) (s : Store) (address : String)
    (amount : Int) (ip : String) (now : Int)
    (transferSucceeds : Bool) : RouteResponse × Store :=
  if address = "" ∨ amount = 0 then (⟨400, false⟩, s)
  else
    if (checkSafeguards cfg s address amount ip now).1.allowed = false then
      (⟨400, false⟩, (checkSafeguards cfg s address amount ip now).2)
    else if transferSucceeds then
      (⟨200, true⟩, (checkSafeguards cfg s address amount ip now).2)
    else
      (⟨400, false⟩, (checkSafeguards cfg s address amount ip now).2)

/-- One operation of the `Safeguards` facade, as invokable by callers. -/
inductive QuotaOp where
  | checkSafe (address : String) (amount : Int) (ip : String)
  | checkRecord (hasIdentity : Bool) (address ip : String)
  | recordSuccess (address ip : String) (amount : Int)
deriving Repr, DecidableEq

/-- Effect of one operation on the store, at wall-clock time `t`
(store failures not injected). -/
def applyOp (cfg : Config) (t : Int) (s : Store) : QuotaOp → Store
  | QuotaOp.checkSafe a amt ip => (checkSafeguards cfg s a amt ip t).2
  | QuotaOp.checkRecord h a ip => (checkAndRecordRequest cfg h none s a ip t).2
  | QuotaOp.recordSuccess a ip amt => recordSuccessfulRequest false s a ip amt t

/-- Run a timed sequence of operations against the store. -/
def runOps (cfg : Config) : Store → List (Int × QuotaOp) → Store
  | s, [] => s
  | s, p :: rest => runOps cfg (applyOp cfg p.1 s p.2) rest

/-- Operations of the checked request paths: `checkSafeguards` with a
nonnegative requested amount, or `checkAndRecordRequest`
(`recordSuccessfulRequest` excluded). -/
def checkedQuotaOp : QuotaOp → Bool
  | QuotaOp.checkSafe _ amt _ => decide (0 ≤ amt)
  | QuotaOp.checkRecord _ _ _ => true
  | QuotaOp.recordSuccess _ _ _ => false

/-- Operations other than the unchecked `recordSuccessfulRequest`. -/
def notRecordSuccess : QuotaOp → Bool
  | QuotaOp.recordSuccess _ _ _ => false
  | _ => true

/-- `DDoSProtection.SUSPICIOUS_THRESHOLD`: 50 requests per minute. -/
def SUSPICIOUS_THRESHOLD : Nat := 50

/-- `DDoSProtection.BLOCK_DURATION`: 15 minutes in milliseconds. -/
def BLOCK_DURATION : Int := 15 * 60 * 1000

/-- `DDoSProtection.WINDOW_SIZE`: 1 minute in milliseconds. -/
def WINDOW_SIZE : Int := 60 * 1000

/-- A value of the `suspiciousIPs` map. -/
structure ActivityEntry where
  count : Nat
  firstSeen : Int
deriving Repr, DecidableEq

/-- An element of the `blockedIPs` set.  The set itself stores only the
IP string; `deadline` records when the `setTimeout` scheduled at block
time will delete the entry (block time + `BLOCK_DURATION`). -/
structure BlockedEntry where
  ip : String
  deadline : Int
deriving Repr, DecidableEq

/-- State of a `DDoSProtection` instance: the `suspiciousIPs` map (as an
association list) and the `blockedIPs` set with the pending unblock
timers. -/
structure DDoSState where
  suspicious : List (String × ActivityEntry)
  blocked : List BlockedEntry
deriving Repr, DecidableEq

/-- The freshly constructed `DDoSProtection` state. -/
def emptyDDoS : DDoSState := ⟨[], []⟩

/-- `this.blockedIPs.has(ip)`. -/
def isBlocked (st : DDoSState) (ip : String) : Bool :=
  st.blocked.any (fun b => b.ip == ip)

/-- `this.suspiciousIPs.get(ip)`. -/
def lookupActivity (m : List (String × ActivityEntry)) (ip : String) : Option ActivityEntry :=
  match m.find? (fun p => p.1 == ip) with
  | some p => some p.2
  | none => none

/-- `this.suspiciousIPs.set(ip, e)`. -/
def setActivity (m : List (String × ActivityEntry)) (ip : String)
    (e : ActivityEntry) : List (String × ActivityEntry) :=
  if m.any (fun p => p.1 == ip) then
    m.map (fun p => if p.1 == ip then (ip, e) else p)
  else m ++ [(ip, e)]

/-- `this.suspiciousIPs.delete(ip)`. -/
def removeActivity (m : List (String × ActivityEntry)) (ip : String) :
    List (String × ActivityEntry) :=
  m.filter (fun p => !(p.1 == ip))

/-- `DDoSProtection.middleware` for one request from `ip` at time `now`
(milliseconds): returns whether the request is admitted (`next()`
called) and the new state.  A blocked IP is denied outright; otherwise
the per-IP counter is updated, resetting when the window expired, and
the IP is moved to the blocked set (with an unblock timer at
`now + BLOCK_DURATION`) once its count exceeds the threshold. -/
def middleware (st : DDoSState) (ip : String) (now : Int) : Bool × DDoSState :=
  if isBlocked st ip then (false, st)
  else
    match lookupActivity st.suspicious ip with
    | some e =>
      if now - e.firstSeen > WINDOW_SIZE then
        (true, ⟨setActivity st.suspicious ip ⟨1, now⟩, st.blocked⟩)
      else if e.count + 1 > SUSPICIOUS_THRESHOLD then
        (false, ⟨removeActivity st.suspicious ip,
          st.blocked ++ [⟨ip, now + BLOCK_DURATION⟩]⟩)
      else
        (true, ⟨setActivity st.suspicious ip ⟨e.count + 1, e.firstSeen⟩, st.blocked⟩)
    | none => (true, ⟨setActivity st.suspicious ip ⟨1, now⟩, st.blocked⟩)

/-- Fire every pending `setTimeout` unblock whose scheduled time has
arrived: entries with `deadline ≤ now` are deleted from the blocked
set.  This is the only mechanism that unblocks an IP. -/
def fireDueTimers (st : DDoSState) (now : Int) : DDoSState :=
  ⟨st.suspicious, st.blocked.filter (fun b => decide (now < b.deadline))⟩

/-- `DDoSProtection.cleanup()`: removes `suspiciousIPs` entries whose
window has expired.  It does not touch the blocked set. -/
def cleanup (st : DDoSState) (now : Int) : DDoSState :=
  ⟨st.suspicious.filter (fun p => !(decide (now - p.2.firstSeen > WINDOW_SIZE))), st.blocked⟩

/-- Run `n` consecutive requests from the same `ip` at time `now`,
collecting the admit decisions in order. -/
def repeatMiddleware (st : DDoSState) (ip : String) (now : Int) :
    Nat → List Bool × DDoSState
  | 0 => ([], st)
  | Nat.succ k =>
    ((middleware st ip now).1 :: (repeatMiddleware (middleware st ip now).2 ip now k).1,
      (repeatMiddleware (middleware st ip now).2 ip now k).2)

/-- The state and decisions after 51 requests from one origin at time
1000 against a fresh guard. -/
def ddosRun51 : List Bool × DDoSState :=
  repeatMiddleware emptyDDoS "1.2.3.4" 1000 51

/-- The default configuration from the environment fallbacks:
`TIME_INTERVAL=86400`, `NUMBER_PER_INTERVAL=1`, `MAX_AMOUNT=1000`. -/
def cfg0 : Config := ⟨86400, 1, 1000⟩

/-- A configuration allowing two requests per interval (used to
exercise the partial-fill path). -/
def cfgTwo : Config := ⟨86400, 2, 1000⟩

/-- A two-operation trace: one `checkSafeguards` grant of 100 followed
by one `checkAndRecordRequest`, both at time 1000. -/
def trW : List (Int × QuotaOp) :=
  [(1000, QuotaOp.checkSafe "a" 100 "ip"), (1000, QuotaOp.checkRecord false "a" "ip")]

/-- A trace of two unchecked `recordSuccessfulRequest` insertions. -/
def trR : List (Int × QuotaOp) :=
  [(1000, QuotaOp.recordSuccess "a" "ip" 1000), (1001, QuotaOp.recordSuccess "a" "ip" 1000)]

/-- A guard state with one fresh activity entry and one blocked entry
whose unblock deadline (5) lies far in the past. -/
def st10 : DDoSState := ⟨[("a", ⟨1, 999⟩)], [⟨"b", 5⟩]⟩

/-- The store error injected at `fp` is actually raised during
`checkAndRecordRequest`: the query always runs, while the insert and
the commit run only on the execution path that passes both policy
checks. -/
def raisesDuringTransaction (cfg : Config) (hid : Bool) (fp : FailPoint)
    (s : Store) (a : String) (t : Int) : Prop :=
  fp = FailPoint.atQuery ∨
    ((requestCount s a t cfg.timeInterval : Int) < cfg.numberPerInterval ∧
      ¬(effectiveMax cfg hid > remainingAllowance cfg hid s a t ∧
        remainingAllowance cfg hid s a t ≤ 0))

lemma windowTotal_nil (a : String) (now I : Int) : windowTotal [] a now I = 0 := rfl

lemma requestCount_nil (a : String) (now I : Int) : requestCount [] a now I = 0 := rfl

lemma windowTotal_cons (r : RequestRecord) (s : Store) (a : String) (now I : Int) :
    windowTotal (r :: s) a now I =
      (if r.address == a && decide (now - I < r.timestamp) then r.amount else 0) +
        windowTotal s a now I := by
  unfold windowTotal windowRecords
  by_cases h : (r.address == a && decide (now - I < r.timestamp)) = true
  · simp [List.filter_cons, h]
  · simp [List.filter_cons, h]

lemma requestCount_cons (r : RequestRecord) (s : Store) (a : String) (now I : Int) :
    requestCount (r :: s) a now I =
      (if r.address == a && decide (now - I < r.timestamp) then 1 else 0) +
        requestCount s a now I := by
  unfold requestCount windowRecords
  by_cases h : (r.address == a && decide (now - I < r.timestamp)) = true
  · simp [List.filter_cons, h]
    omega
  · simp [List.filter_cons, h]

lemma windowTotal_append_one (s : Store) (r : RequestRecord) (a : String) (now I : Int) :
    windowTotal (s ++ [r]) a now I =
      windowTotal s a now I +
        (if r.address == a && decide (now - I < r.timestamp) then r.amount else 0) := by
  unfold windowTotal windowRecords
  rw [List.filter_append]
  by_cases h : (r.address == a && decide (now - I < r.timestamp)) = true
  · simp [List.filter_cons, h]
  · simp [List.filter_cons, h]

lemma requestCount_append_one (s : Store) (r : RequestRecord) (a : String) (now I : Int) :
    requestCount (s ++ [r]) a now I =
      requestCount s a now I +
        (if r.address == a && decide (now - I < r.timestamp) then 1 else 0) := by
  unfold requestCount windowRecords
  rw [List.filter_append]
  by_cases h : (r.address == a && decide (now - I < r.timestamp)) = true
  · simp [List.filter_cons, h]
  · simp [List.filter_cons, h]

/-- Looking at the same store from a later `now` can only shrink the
window total, provided every recorded amount is nonnegative. -/
lemma windowTotal_anti (s : Store) (a : String) (I t now : Int) (h : t ≤ now)
    (hn : ∀ r ∈ s, 0 ≤ r.amount) :
    windowTotal s a now I ≤ windowTotal s a t I := by
  induction s with
  | nil => simp [windowTotal_nil]
  | cons r s ih =>
    have hr : 0 ≤ r.amount := hn r (by simp)
    have hs : ∀ x ∈ s, 0 ≤ x.amount := fun x hx => hn x (by simp [hx])
    have ih' := ih hs
    rw [windowTotal_cons, windowTotal_cons]
    have himp : (r.address == a && decide (now - I < r.timestamp)) = true →
        (r.address == a && decide (t - I < r.timestamp)) = true := by
      intro hx
      simp only [Bool.and_eq_true, decide_eq_true_eq] at hx ⊢
      exact ⟨hx.1, by omega⟩
    by_cases hpn : (r.address == a && decide (now - I < r.timestamp)) = true
    · rw [if_pos hpn, if_pos (himp hpn)]
      omega
    · rw [if_neg hpn]
      by_cases hpt : (r.address == a && decide (t - I < r.timestamp)) = true
      · rw [if_pos hpt]
        omega
      · rw [if_neg hpt]
        omega

/-- Looking at the same store from a later `now` can only shrink the
window count. -/
lemma requestCount_anti (s : Store) (a : String) (I t now : Int) (h : t ≤ now) :
    requestCount s a now I ≤ requestCount s a t I := by
  induction s with
  | nil => simp [requestCount_nil]
  | cons r s ih =>
    rw [requestCount_cons, requestCount_cons]
    have himp : (r.address == a && decide (now - I < r.timestamp)) = true →
        (r.address == a && decide (t - I < r.timestamp)) = true := by
      intro hx
      simp only [Bool.and_eq_true, decide_eq_true_eq] at hx ⊢
      exact ⟨hx.1, by omega⟩
    by_cases hpn : (r.address == a && decide (now - I < r.timestamp)) = true
    · rw [if_pos hpn, if_pos (himp hpn)]
      omega
    · rw [if_neg hpn]
      by_cases hpt : (r.address == a && decide (t - I < r.timestamp)) = true
      · rw [if_pos hpt]
        omega
      · rw [if_neg hpt]
        omega

/-- Store effect of `checkSafeguards`: either unchanged (deny), or one
record appended under the guards that held at the time of the call. -/
lemma checkSafeguards_snd (cfg : Config) (s : Store) (a : String) (amt : Int)
    (ip : String) (t : Int) :
    (checkSafeguards cfg s a amt ip t).2 = s ∨
    ((checkSafeguards cfg s a amt ip t).2 = s ++ [⟨a, amt, ip, t⟩] ∧
      (requestCount s a t cfg.timeInterval : Int) < cfg.numberPerInterval ∧
      windowTotal s a t cfg.timeInterval + amt ≤ cfg.maxAmount) := by
  unfold checkSafeguards
  split_ifs with h1 h2 h3
  · exact Or.inl rfl
  · exact Or.inl rfl
  · exact Or.inl rfl
  · exact Or.inr ⟨rfl, by omega, by omega⟩

lemma effectiveMax_nonneg (cfg : Config) (h : Bool) (hm : 0 ≤ cfg.maxAmount) :
    0 ≤ effectiveMax cfg h := by
  cases h <;> simp [effectiveMax] <;> omega

lemma effectiveMax_le_max (cfg : Config) (h : Bool) :
    effectiveMax cfg h ≤ max cfg.maxAmount 100 := by
  cases h <;> simp [effectiveMax]

/-- With no store failure injected, the transient branches of
`checkAndRecordRequest` are dead. -/
lemma checkAndRecordRequest_none_eq (cfg : Config) (hid : Bool) (s : Store)
    (a ip : String) (t : Int) :
    checkAndRecordRequest cfg hid none s a ip t =
      if (requestCount s a t cfg.timeInterval : Int) ≥ cfg.numberPerInterval then
        (⟨false, "Address has reached the maximum number of requests for this time interval", none⟩, s)
      else if effectiveMax cfg hid > remainingAllowance cfg hid s a t ∧
          remainingAllowance cfg hid s a t ≤ 0 then
        (⟨false, "Address has reached the maximum amount limit for this time interval", none⟩, s)
      else if effectiveMax cfg hid > remainingAllowance cfg hid s a t then
        (⟨true, "Request allowed", some (remainingAllowance cfg hid s a t)⟩,
          s ++ [⟨a, remainingAllowance cfg hid s a t, ip, t⟩])
      else
        (⟨true, "Request allowed", some (effectiveMax cfg hid)⟩,
          s ++ [⟨a, effectiveMax cfg hid, ip, t⟩]) := by
  unfold checkAndRecordRequest
  simp

/-- Store effect of `checkAndRecordRequest` (no store failure): either
unchanged (deny), or one record appended whose amount `g` respects the
guards that held at the time of the call. -/
lemma checkAndRecordRequest_snd (cfg : Config) (hid : Bool) (s : Store)
    (a ip : String) (t : Int) :
    (checkAndRecordRequest cfg hid none s a ip t).2 = s ∨
    (∃ g : Int, (checkAndRecordRequest cfg hid none s a ip t).2 = s ++ [⟨a, g, ip, t⟩] ∧
      (requestCount s a t cfg.timeInterval : Int) < cfg.numberPerInterval ∧
      windowTotal s a t cfg.timeInterval + g ≤ effectiveMax cfg hid ∧
      (0 ≤ cfg.maxAmount → 0 ≤ g)) := by
  rw [checkAndRecordRequest_none_eq]
  split_ifs with h1 h2 h3
  · exact Or.inl rfl
  · exact Or.inl rfl
  · refine Or.inr ⟨remainingAllowance cfg hid s a t, rfl, by omega, ?_, ?_⟩
    · unfold remainingAllowance
      omega
    · intro hm
      unfold remainingAllowance at h2 h3 ⊢
      omega
  · refine Or.inr ⟨effectiveMax cfg hid, rfl, by omega, ?_,
      fun hm => effectiveMax_nonneg cfg hid hm⟩
    unfold remainingAllowance at h3
    omega

/-- Appending one record whose amount respects the window guards that
held at its insertion time `t` preserves nonnegativity of amounts and
the window-total bound at every view time at or past all timestamps. -/
lemma insert_preserves_total (cfg : Config) (s : Store) (a0 : String) (g t : Int)
    (ip0 : String) (B : Int) (hB : B ≤ max cfg.maxAmount 100) (hg : 0 ≤ g)
    (htot : windowTotal s a0 t cfg.timeInterval + g ≤ B)
    (hn : ∀ r ∈ s, 0 ≤ r.amount)
    (hb : ∀ a now, (∀ r ∈ s, r.timestamp ≤ now) →
      windowTotal s a now cfg.timeInterval ≤ max cfg.maxAmount 100) :
    (∀ r ∈ s ++ [⟨a0, g, ip0, t⟩], 0 ≤ r.amount) ∧
    (∀ a now, (∀ r ∈ s ++ [⟨a0, g, ip0, t⟩], r.timestamp ≤ now) →
      windowTotal (s ++ [⟨a0, g, ip0, t⟩]) a now cfg.timeInterval ≤ max cfg.maxAmount 100) := by
  constructor
  · intro r hr
    rcases List.mem_append.mp hr with h | h
    · exact hn r h
    · have : r = ⟨a0, g, ip0, t⟩ := by simpa using h
      rw [this]
      exact hg
  · intro a now hts
    have htnow : t ≤ now := by
      simpa using hts ⟨a0, g, ip0, t⟩ (List.mem_append_right _ (by simp))
    have hts' : ∀ r ∈ s, r.timestamp ≤ now := fun r hr => hts r (List.mem_append_left _ hr)
    rw [windowTotal_append_one]
    dsimp only
    by_cases hp : ((a0 == a) && decide (now - cfg.timeInterval < t)) = true
    · rw [if_pos hp]
      have ha : a0 = a := by
        have := (Bool.and_eq_true _ _).mp hp
        exact beq_iff_eq.mp this.1
      subst ha
      have hmono := windowTotal_anti s a0 cfg.timeInterval t now htnow hn
      omega
    · rw [if_neg hp]
      have := hb a now hts'
      omega

/-- Appending one record inserted while the window count was strictly
below `n` preserves the window-count bound at every view time at or
past all timestamps. -/
lemma insert_preserves_count (cfg : Config) (n : Int) (s : Store) (a0 : String)
    (g t : Int) (ip0 : String)
    (hcnt : (requestCount s a0 t cfg.timeInterval : Int) < n)
    (hb : ∀ a now, (∀ r ∈ s, r.timestamp ≤ now) →
      (requestCount s a now cfg.timeInterval : Int) ≤ n) :
    ∀ a now, (∀ r ∈ s ++ [⟨a0, g, ip0, t⟩], r.timestamp ≤ now) →
      (requestCount (s ++ [⟨a0, g, ip0, t⟩]) a now cfg.timeInterval : Int) ≤ n := by
  intro a now hts
  have htnow : t ≤ now := by
    simpa using hts ⟨a0, g, ip0, t⟩ (List.mem_append_right _ (by simp))
  have hts' : ∀ r ∈ s, r.timestamp ≤ now := fun r hr => hts r (List.mem_append_left _ hr)
  rw [requestCount_append_one]
  dsimp only
  by_cases hp : ((a0 == a) && decide (now - cfg.timeInterval < t)) = true
  · rw [if_pos hp]
    have ha : a0 = a := by
      have := (Bool.and_eq_true _ _).mp hp
      exact beq_iff_eq.mp this.1
    subst ha
    have hmono := requestCount_anti s a0 cfg.timeInterval t now htnow
    push_cast
    omega
  · rw [if_neg hp]
    have := hb a now hts'
    push_cast
    omega

/-- One checked operation (no `recordSuccessfulRequest`, nonnegative
requested amounts) preserves the amount invariant. -/
lemma applyOp_total (cfg : Config) (hm : 0 ≤ cfg.maxAmount) (t : Int) (op : QuotaOp)
    (hop : checkedQuotaOp op = true) (s : Store)
    (hn : ∀ r ∈ s, 0 ≤ r.amount)
    (hb : ∀ a now, (∀ r ∈ s, r.timestamp ≤ now) →
      windowTotal s a now cfg.timeInterval ≤ max cfg.maxAmount 100) :
    (∀ r ∈ applyOp cfg t s op, 0 ≤ r.amount) ∧
    (∀ a now, (∀ r ∈ applyOp cfg t s op, r.timestamp ≤ now) →
      windowTotal (applyOp cfg t s op) a now cfg.timeInterval ≤ max cfg.maxAmount 100) := by
  cases op with
  | checkSafe a0 amt ip0 =>
    have hamt : 0 ≤ amt := by simpa [checkedQuotaOp] using hop
    rcases checkSafeguards_snd cfg s a0 amt ip0 t with h | ⟨h, _, htot⟩
    · dsimp only [applyOp]
      rw [h]
      exact ⟨hn, hb⟩
    · dsimp only [applyOp]
      rw [h]
      exact insert_preserves_total cfg s a0 amt t ip0 cfg.maxAmount (le_max_left _ _)
        hamt htot hn hb
  | checkRecord hid a0 ip0 =>
    rcases checkAndRecordRequest_snd cfg hid s a0 ip0 t with h | ⟨g, h, _, htot, hg⟩
    · dsimp only [applyOp]
      rw [h]
      exact ⟨hn, hb⟩
    · dsimp only [applyOp]
      rw [h]
      exact insert_preserves_total cfg s a0 g t ip0 (effectiveMax cfg hid)
        (effectiveMax_le_max cfg hid) (hg hm) htot hn hb
  | recordSuccess a0 ip0 amt => simp [checkedQuotaOp] at hop

/-- One operation other than `recordSuccessfulRequest` preserves the
count invariant. -/
lemma applyOp_count (cfg : Config) (t : Int) (op : QuotaOp)
    (hop : notRecordSuccess op = true) (s : Store)
    (hb : ∀ a now, (∀ r ∈ s, r.timestamp ≤ now) →
      (requestCount s a now cfg.timeInterval : Int) ≤ cfg.numberPerInterval) :
    ∀ a now, (∀ r ∈ applyOp cfg t s op, r.timestamp ≤ now) →
      (requestCount (applyOp cfg t s op) a now cfg.timeInterval : Int) ≤ cfg.numberPerInterval := by
  cases op with
  | checkSafe a0 amt ip0 =>
    rcases checkSafeguards_snd cfg s a0 amt ip0 t with h | ⟨h, hcnt, _⟩
    · dsimp only [applyOp]
      rw [h]
      exact hb
    · dsimp only [applyOp]
      rw [h]
      exact insert_preserves_count cfg cfg.numberPerInterval s a0 amt t ip0 hcnt hb
  | checkRecord hid a0 ip0 =>
    rcases checkAndRecordRequest_snd cfg hid s a0 ip0 t with h | ⟨g, h, hcnt, _, _⟩
    · dsimp only [applyOp]
      rw [h]
      exact hb
    · dsimp only [applyOp]
      rw [h]
      exact insert_preserves_count cfg cfg.numberPerInterval s a0 g t ip0 hcnt hb
  | recordSuccess a0 ip0 amt => simp [notRecordSuccess] at hop

lemma runOps_total (cfg : Config) (hm : 0 ≤ cfg.maxAmount)
    (trace : List (Int × QuotaOp)) :
    ∀ s : Store, (∀ p ∈ trace, checkedQuotaOp p.2 = true) →
      (∀ r ∈ s, 0 ≤ r.amount) →
      (∀ a now, (∀ r ∈ s, r.timestamp ≤ now) →
        windowTotal s a now cfg.timeInterval ≤ max cfg.maxAmount 100) →
      (∀ r ∈ runOps cfg s trace, 0 ≤ r.amount) ∧
      (∀ a now, (∀ r ∈ runOps cfg s trace, r.timestamp ≤ now) →
        windowTotal (runOps cfg s trace) a now cfg.timeInterval ≤ max cfg.maxAmount 100) := by
  induction trace with
  | nil =>
    intro s _ hn hb
    exact ⟨hn, hb⟩
  | cons p rest ih =>
    intro s h hn hb
    have step := applyOp_total cfg hm p.1 p.2 (h p (by simp)) s hn hb
    simp only [runOps]
    exact ih (applyOp cfg p.1 s p.2) (fun q hq => h q (by simp [hq])) step.1 step.2

lemma runOps_count (cfg : Config) (trace : List (Int × QuotaOp)) :
    ∀ s : Store, (∀ p ∈ trace, notRecordSuccess p.2 = true) →
      (∀ a now, (∀ r ∈ s, r.timestamp ≤ now) →
        (requestCount s a now cfg.timeInterval : Int) ≤ cfg.numberPerInterval) →
      ∀ a now, (∀ r ∈ runOps cfg s trace, r.timestamp ≤ now) →
        (requestCount (runOps cfg s trace) a now cfg.timeInterval : Int) ≤ cfg.numberPerInterval := by
  induction trace with
  | nil =>
    intro s _ hb
    exact hb
  | cons p rest ih =>
    intro s h hb
    have step := applyOp_count cfg p.1 p.2 (h p (by simp)) s hb
    simp only [runOps]
    exact ih (applyOp cfg p.1 s p.2) (fun q hq => h q (by simp [hq])) step

/-- Claim C8: `recordSuccessfulRequest` always returns normally (it is a
total function with no error channel): when the insert fails the error
is swallowed and the store — hence every window statistic — is exactly
the input store, so the grant stays unrecorded and the caller gets no
indication; when the insert succeeds exactly the given record is
appended. -/
theorem c8_record_returns_normally (s : Store) (address ip : String)
    (amount now : Int) (a2 : String) (n2 I2 : Int) :
    recordSuccessfulRequest true s address ip amount now = s ∧
    recordSuccessfulRequest false s address ip amount now = s ++ [⟨address, amount, ip, now⟩] ∧
    windowTotal (recordSuccessfulRequest true s address ip amount now) a2 n2 I2 =
      windowTotal s a2 n2 I2 ∧
    requestCount (recordSuccessfulRequest true s address ip amount now) a2 n2 I2 =
      requestCount s a2 n2 I2 :=
  ⟨rfl, rfl, rfl, rfl⟩

/-- Claim C4: evaluation of the implemented `/api/request` flow at a
concrete failing input.  On an empty store the phase-1 check
(`checkSafeguards`) returns allowed, the external transfer fails, and
the store after the failed flow nevertheless contains the grant record
(the quota check wrote it before the transfer), contradicting the
claimed two-phase safety; the unused `checkIfAllowed`, by contrast,
writes nothing. -/
theorem c4_store_changed_after_failed_transfer :
    (checkSafeguards cfg0 [] "a" 100 "ip" 1000).1.allowed = true ∧
    (apiRequest cfg0 [] "a" 100 "ip" 1000 false).1 = ⟨400, false⟩ ∧
    (apiRequest cfg0 [] "a" 100 "ip" 1000 false).2 = [⟨"a", 100, "ip", 1000⟩] ∧
    (apiRequest cfg0 [] "a" 100 "ip" 1000 false).2 ≠ [] ∧
    (checkIfAllowed cfg0 false none [] "a" "ip" 1000).2 = [] := by
  decide

/-- Claim C2, counterexample to the original statement: in a store
where the recomputed quota decision is deny (the window already holds
`numberPerInterval` grants), `recordSuccessfulRequest` still persists a
GrantRecord — the commit neither recomputes the window statistics nor
re-applies the policy before appending. -/
theorem c2_counterexample :
    (checkAndRecordRequest cfg0 false none [⟨"a", 1000, "ip", 999⟩] "a" "ip" 1000).1.allowed
      = false ∧
    recordSuccessfulRequest false [⟨"a", 1000, "ip", 999⟩] "a" "ip" 1000 1000 ≠
      [⟨"a", 1000, "ip", 999⟩] := by
  decide

/-- Claim C2 (amended): `recordSuccessfulRequest` appends the grant
record unconditionally — even in states where re-running the quota
policy (`checkAndRecordRequest`) would deny — and it is not the only
persisting call: `checkSafeguards` and `checkAndRecordRequest` also
append records. -/
theorem c2_record_no_revalidation (cfg : Config) (hid : Bool) (s : Store)
    (addr ip : String) (amt now : Int)
    (hdeny : (checkAndRecordRequest cfg hid none s addr ip now).1.allowed = false) :
    recordSuccessfulRequest false s addr ip amt now = s ++ [⟨addr, amt, ip, now⟩] ∧
    (checkSafeguards cfg0 [] "b" 100 "ip" 1000).2 ≠ [] ∧
    (checkAndRecordRequest cfg0 false none [] "b" "ip" 1000).2 ≠ [] :=
  ⟨rfl, by decide, by decide⟩

/-- Claim C2 witness: a concrete deny state in which the unconditional
append still happens. -/
theorem c2_witness :
    (checkAndRecordRequest cfg0 false none [⟨"a", 1000, "ip", 999⟩] "a" "ip" 1000).1.allowed
      = false ∧
    recordSuccessfulRequest false [⟨"a", 1000, "ip", 999⟩] "a" "ip" 1000 1000 =
      [⟨"a", 1000, "ip", 999⟩] ++ [⟨"a", 1000, "ip", 1000⟩] :=
  ⟨by decide,
    (c2_record_no_revalidation cfg0 false [⟨"a", 1000, "ip", 999⟩] "a" "ip" 1000 1000
      (by decide)).1⟩

/-- Claim C7: whenever the store raises an error that is actually
reached during the atomic check-and-record transaction, the call
returns a deny decision carrying the transient-error message instead of
propagating the error, and the store is exactly the input store (the
transaction rolled back, no partial record). -/
theorem c7_transient_error_deny (cfg : Config) (hid : Bool) (s : Store)
    (a ip : String) (t : Int) (fp : FailPoint)
    (h : raisesDuringTransaction cfg hid fp s a t) :
    checkAndRecordRequest cfg hid (some fp) s a ip t =
      (⟨false, transientMessage, none⟩, s) := by
  rcases h with h | ⟨h1, h2⟩
  · subst h
    unfold checkAndRecordRequest
    simp
  · cases fp with
    | atQuery =>
      unfold checkAndRecordRequest
      simp
    | atInsert =>
      unfold checkAndRecordRequest
      rw [if_neg (by simp), if_neg (by omega), if_neg h2, if_pos (by simp)]
    | atCommit =>
      unfold checkAndRecordRequest
      rw [if_neg (by simp), if_neg (by omega), if_neg h2, if_pos (by simp)]

/-- Claim C7 witness: a query failure on the empty store. -/
theorem c7_witness :
    raisesDuringTransaction cfg0 false FailPoint.atQuery [] "a" 1000 ∧
    checkAndRecordRequest cfg0 false (some FailPoint.atQuery) [] "a" "ip" 1000 =
      (⟨false, transientMessage, none⟩, []) :=
  ⟨Or.inl rfl,
    c7_transient_error_deny cfg0 false [] "a" "ip" 1000 FailPoint.atQuery (Or.inl rfl)⟩

/-- Claim C5: the quota decision of `checkAndRecordRequest` is a
partial-fill policy with no caller-supplied amount.  With a positive
effective ceiling: when the window count is below `numberPerInterval`
and the remaining allowance is strictly positive, the decision is
allowed with granted amount `min ceiling remaining`, which is strictly
positive; when the remaining allowance is not positive the decision is
deny with no amount; and every allowed decision carries a strictly
positive amount. -/
theorem c5_partial_fill (cfg : Config) (hid : Bool) (s : Store)
    (addr ip : String) (now : Int) (hm : 0 < effectiveMax cfg hid) :
    ((requestCount s addr now cfg.timeInterval : Int) < cfg.numberPerInterval →
      0 < remainingAllowance cfg hid s addr now →
      (checkAndRecordRequest cfg hid none s addr ip now).1 =
        ⟨true, "Request allowed",
          some (min (effectiveMax cfg hid) (remainingAllowance cfg hid s addr now))⟩ ∧
      0 < min (effectiveMax cfg hid) (remainingAllowance cfg hid s addr now)) ∧
    (remainingAllowance cfg hid s addr now ≤ 0 →
      (checkAndRecordRequest cfg hid none s addr ip now).1.allowed = false ∧
      (checkAndRecordRequest cfg hid none s addr ip now).1.amount = none) ∧
    ((checkAndRecordRequest cfg hid none s addr ip now).1.allowed = true →
      ∃ g, (checkAndRecordRequest cfg hid none s addr ip now).1.amount = some g ∧ 0 < g) := by
  refine ⟨?_, ?_, ?_⟩
  · intro hc hr
    rw [checkAndRecordRequest_none_eq]
    split_ifs with h1 h2 h3
    · exact absurd h1 (by omega)
    · exact absurd h2.2 (by omega)
    · constructor
      · rw [min_eq_right (le_of_lt h3)]
      · rw [min_eq_right (le_of_lt h3)]
        exact hr
    · constructor
      · rw [min_eq_left (le_of_not_lt h3)]
      · rw [min_eq_left (le_of_not_lt h3)]
        exact hm
  · intro hr
    rw [checkAndRecordRequest_none_eq]
    split_ifs with h1 h2 h3
    · exact ⟨rfl, rfl⟩
    · exact ⟨rfl, rfl⟩
    · exact absurd ⟨h3, hr⟩ h2
    · exact absurd hm (by omega)
  · rw [checkAndRecordRequest_none_eq]
    split_ifs with h1 h2 h3
    · intro hall
      exact absurd hall (by simp)
    · intro hall
      exact absurd hall (by simp)
    · intro _
      refine ⟨remainingAllowance cfg hid s addr now, rfl, ?_⟩
      omega
    · intro _
      exact ⟨effectiveMax cfg hid, rfl, hm⟩

/-- Claim C5 witness: the partial-fill example — ceiling 1000, prior
window total 950, remaining 50: allowed with exactly 50. -/
theorem c5_witness :
    0 < effectiveMax cfgTwo false ∧
    (checkAndRecordRequest cfgTwo false none [⟨"x", 950, "ip", 900⟩] "x" "ip" 1000).1 =
      ⟨true, "Request allowed", some 50⟩ := by
  refine ⟨by decide, ?_⟩
  have h := (c5_partial_fill cfgTwo false [⟨"x", 950, "ip", 900⟩] "x" "ip" 1000
    (by decide)).1 (by decide) (by decide)
  rw [h.1]
  decide

/-- Claim C9: a grant recorded at `t0` contributes to neither the
window count nor the window total of an evaluation at
`t0 + timeInterval + 1`, so the quota decision there is the same as if
the grant did not exist; and the window aggregation selects exactly the
records of the given address with timestamp strictly greater than
`now - timeInterval`. -/
theorem c9_window_rollover (cfg : Config) (hid : Bool) (s : Store)
    (addr ip ip0 : String) (amt t0 : Int) :
    requestCount (s ++ [⟨addr, amt, ip0, t0⟩]) addr (t0 + cfg.timeInterval + 1)
        cfg.timeInterval =
      requestCount s addr (t0 + cfg.timeInterval + 1) cfg.timeInterval ∧
    windowTotal (s ++ [⟨addr, amt, ip0, t0⟩]) addr (t0 + cfg.timeInterval + 1)
        cfg.timeInterval =
      windowTotal s addr (t0 + cfg.timeInterval + 1) cfg.timeInterval ∧
    (checkAndRecordRequest cfg hid none (s ++ [⟨addr, amt, ip0, t0⟩]) addr ip
        (t0 + cfg.timeInterval + 1)).1 =
      (checkAndRecordRequest cfg hid none s addr ip (t0 + cfg.timeInterval + 1)).1 ∧
    (∀ now2 : Int, ∀ r : RequestRecord,
      r ∈ windowRecords s addr now2 cfg.timeInterval ↔
        (r ∈ s ∧ r.address = addr ∧ now2 - cfg.timeInterval < r.timestamp)) := by
  have hcond : ¬((addr == addr) && decide
      (t0 + cfg.timeInterval + 1 - cfg.timeInterval < t0)) = true := by
    simp
    omega
  have h1 : requestCount (s ++ [⟨addr, amt, ip0, t0⟩]) addr (t0 + cfg.timeInterval + 1)
      cfg.timeInterval = requestCount s addr (t0 + cfg.timeInterval + 1) cfg.timeInterval := by
    rw [requestCount_append_one]
    dsimp only
    rw [if_neg hcond]
    omega
  have h2 : windowTotal (s ++ [⟨addr, amt, ip0, t0⟩]) addr (t0 + cfg.timeInterval + 1)
      cfg.timeInterval = windowTotal s addr (t0 + cfg.timeInterval + 1) cfg.timeInterval := by
    rw [windowTotal_append_one]
    dsimp only
    rw [if_neg hcond]
    omega
  have h3 : remainingAllowance cfg hid (s ++ [⟨addr, amt, ip0, t0⟩]) addr
      (t0 + cfg.timeInterval + 1) = remainingAllowance cfg hid s addr
      (t0 + cfg.timeInterval + 1) := by
    unfold remainingAllowance
    rw [h2]
  refine ⟨h1, h2, ?_, ?_⟩
  · rw [checkAndRecordRequest_none_eq, checkAndRecordRequest_none_eq]
    rw [apply_ite Prod.fst, apply_ite Prod.fst, apply_ite Prod.fst,
      apply_ite Prod.fst, apply_ite Prod.fst, apply_ite Prod.fst]
    rw [h1, h3]
  · intro now2 r
    simp [windowRecords, List.mem_filter, and_assoc]

/-- Claim C9 witness: with the default 86400 s interval, a grant at
t0 = 500 does not count at 500 + 86400 + 1, while a grant at 600 is
inside the window at 86901. -/
theorem c9_witness :
    requestCount ([⟨"a", 5, "ip", 600⟩] ++ [⟨"a", 7, "ip", 500⟩]) "a"
        (500 + cfg0.timeInterval + 1) cfg0.timeInterval =
      requestCount [⟨"a", 5, "ip", 600⟩] "a" (500 + cfg0.timeInterval + 1) cfg0.timeInterval ∧
    (⟨"a", 5, "ip", 600⟩ : RequestRecord) ∈
      windowRecords [⟨"a", 5, "ip", 600⟩] "a" 86901 cfg0.timeInterval := by
  have h := c9_window_rollover cfg0 false [⟨"a", 5, "ip", 600⟩] "a" "ip" "ip" 7 500
  refine ⟨h.1, ?_⟩
  exact (h.2.2.2 86901 ⟨"a", 5, "ip", 600⟩).mpr ⟨by simp, rfl, by decide⟩

/-- Claim C1, counterexample to the original statement: a single
`recordSuccessfulRequest` operation (one of the listed Safeguards
operations) yields a reachable store whose window total, 1001, exceeds
both the base ceiling (1000) and the identity-tier ceiling (100). -/
theorem c1_counterexample :
    windowTotal (runOps cfg0 [] [(1000, QuotaOp.recordSuccess "a" "ip" 1001)]) "a" 1000
      cfg0.timeInterval = 1001 ∧
    max cfg0.maxAmount 100 < 1001 := by
  decide

/-- Claim C1 (amended): over every sequence of `checkSafeguards`
(nonnegative requested amounts) and `checkAndRecordRequest` operations
— `recordSuccessfulRequest` excluded — and for every identity, the sum
of recorded amounts inside the rolling `timeInterval` window, viewed at
any time at or past all recorded timestamps, never exceeds the largest
effective ceiling `max maxAmount 100` (base or identity tier),
including partially filled grants. -/
theorem c1_amount_ceiling (cfg : Config) (hm : 0 ≤ cfg.maxAmount)
    (trace : List (Int × QuotaOp))
    (hops : ∀ p ∈ trace, checkedQuotaOp p.2 = true)
    (a : String) (now : Int)
    (hts : ∀ r ∈ runOps cfg [] trace, r.timestamp ≤ now) :
    windowTotal (runOps cfg [] trace) a now cfg.timeInterval ≤ max cfg.maxAmount 100 :=
  (runOps_total cfg hm trace [] hops (by simp)
    (fun a2 n2 _ => by
      rw [windowTotal_nil]
      exact le_trans (by norm_num) (le_max_right cfg.maxAmount 100))).2 a now hts

/-- Claim C1 witness: a grant of 100 via `checkSafeguards` followed by
a partial fill of 900 via `checkAndRecordRequest` stays within the
ceiling. -/
theorem c1_witness :
    (∀ p ∈ trW, checkedQuotaOp p.2 = true) ∧
    windowTotal (runOps cfg0 [] trW) "a" 1000 cfg0.timeInterval ≤ max cfg0.maxAmount 100 :=
  ⟨by decide, c1_amount_ceiling cfg0 (by decide) trW (by decide) "a" 1000 (by decide)⟩

/-- Claim C3, counterexample to the original statement: two
`recordSuccessfulRequest` operations yield a reachable store with 2
grants inside the window while `numberPerInterval` is 1. -/
theorem c3_counterexample :
    requestCount (runOps cfg0 [] trR) "a" 1001 cfg0.timeInterval = 2 ∧
    cfg0.numberPerInterval < 2 := by
  decide

/-- Claim C3 (amended): over every sequence of `checkSafeguards` and
`checkAndRecordRequest` operations — `recordSuccessfulRequest`
excluded — and for every identity, the number of recorded grants inside
the rolling `timeInterval` window, viewed at any time at or past all
recorded timestamps, never exceeds `numberPerInterval`. -/
theorem c3_count_ceiling (cfg : Config) (hn0 : 0 ≤ cfg.numberPerInterval)
    (trace : List (Int × QuotaOp))
    (hops : ∀ p ∈ trace, notRecordSuccess p.2 = true)
    (a : String) (now : Int)
    (hts : ∀ r ∈ runOps cfg [] trace, r.timestamp ≤ now) :
    (requestCount (runOps cfg [] trace) a now cfg.timeInterval : Int) ≤
      cfg.numberPerInterval :=
  runOps_count cfg trace [] hops
    (fun a2 n2 _ => by
      rw [requestCount_nil]
      simpa using hn0) a now hts

/-- Claim C3 witness: the two-operation trace `trW` never exceeds the
per-interval count of `cfg0` (one recorded grant: the second operation
is denied on the count limit). -/
theorem c3_witness :
    (∀ p ∈ trW, notRecordSuccess p.2 = true) ∧
    (requestCount (runOps cfg0 [] trW) "a" 1000 cfg0.timeInterval : Int) ≤
      cfg0.numberPerInterval :=
  ⟨by decide, c3_count_ceiling cfg0 (by decide) trW (by decide) "a" 1000 (by decide)⟩

set_option maxRecDepth 4000 in
/-- Claim C6, counterexample to the original statement: after the
51-request flood, the single blocked entry's deadline (1000 + 15 min)
has elapsed before time 901001, no deferred unblock has fired, and the
request at 901001 is still denied — `middleware` consults only set
membership and has no lazy expiry. -/
theorem c6_counterexample :
    (∀ b ∈ ddosRun51.2.blocked, b.deadline < 901001) ∧
    (middleware ddosRun51.2 "1.2.3.4" 901001).1 = false := by
  decide

set_option maxRecDepth 4000 in
/-- Claim C6 (amended): 51 requests from one origin at one instant
(inside a single 60 s window) are admitted 50 times and denied on the
51st, which moves the origin to the blocked set with unblock deadline
block time + 15 min; every request from an origin in the blocked set is
denied, regardless of whether the deadline has passed, until the
deferred unblock action fires; once `fireDueTimers` runs at the
deadline, the origin's next request is admitted. -/
theorem c6_anomaly_blocking :
    ddosRun51.1 = List.replicate 50 true ++ [false] ∧
    ddosRun51.2.blocked = [⟨"1.2.3.4", 901000⟩] ∧
    (∀ st ip now, isBlocked st ip = true → middleware st ip now = (false, st)) ∧
    (middleware (fireDueTimers ddosRun51.2 901000) "1.2.3.4" 901001).1 = true := by
  refine ⟨by decide, by decide, ?_, by decide⟩
  intro st ip now h
  unfold middleware
  rw [if_pos h]

/-- Claim C6 witness: a blocked origin is denied by `middleware` even
long after its deadline. -/
theorem c6_witness :
    isBlocked ⟨[], [⟨"z", 10⟩]⟩ "z" = true ∧
    middleware ⟨[], [⟨"z", 10⟩]⟩ "z" 5000000 = (false, ⟨[], [⟨"z", 10⟩]⟩) :=
  ⟨by decide, c6_anomaly_blocking.2.2.1 ⟨[], [⟨"z", 10⟩]⟩ "z" 5000000 (by decide)⟩

/-- Claim C10, counterexample to the original statement: `cleanup`
leaves a blocked entry whose unblock deadline (5) passed long before
`now = 1000000` in the blocked set. -/
theorem c10_counterexample :
    ∃ b ∈ (cleanup st10 1000000).blocked, b.deadline < 1000000 := by
  decide

/-- Claim C10 (amended): after `cleanup` at time `now`, no
`suspiciousIPs` entry whose tracking window expired before `now`
remains, and unexpired entries are kept; the blocked set is untouched
by `cleanup` — expired blocked entries are removed only by their
deferred unblock timers, never by the sweep. -/
theorem c10_cleanup_sweep (st : DDoSState) (now : Int) :
    (cleanup st now).blocked = st.blocked ∧
    (∀ p ∈ (cleanup st now).suspicious, now - p.2.firstSeen ≤ WINDOW_SIZE) ∧
    (∀ p ∈ st.suspicious, now - p.2.firstSeen ≤ WINDOW_SIZE →
      p ∈ (cleanup st now).suspicious) := by
  refine ⟨rfl, ?_, ?_⟩
  · intro p hp
    have := List.of_mem_filter hp
    simp at this
    omega
  · intro p hp h
    refine List.mem_filter.mpr ⟨hp, ?_⟩
    simp
    omega

/-- Claim C10 witness: a concrete sweep keeping a live activity entry
and leaving the blocked set unchanged. -/
theorem c10_witness :
    (cleanup st10 1000).blocked = st10.blocked ∧
    ("a", (⟨1, 999⟩ : ActivityEntry)) ∈ (cleanup st10 1000).suspicious :=
  ⟨(c10_cleanup_sweep st10 1000).1,
    (c10_cleanup_sweep st10 1000).2.2 ("a", ⟨1, 999⟩) (by decide) (by decide)⟩

end Faucet
